import Mathlib

/-!
Verification development for the ProFlow-Agent repository.

This file gives a shallow embedding, in Lean 4, of the state-persistence,
caching, retry and batch-orchestration core of the repository
(`src/state/session_manager.py`, `src/utils/retry_logic.py`,
`src/workflows/async_orchestrator.py`,
`src/agents/email_intelligence_agent.py`), and proves or refutes the frozen
specification claims about that core.

Modelling conventions:
* Python dicts used as string-keyed maps become association lists
  (`List (String × _)`) with Python's upsert semantics (replace in place if
  the key is present, append otherwise).
* `datetime.now()` readings are passed in as explicit `now : String`
  arguments; one reading per top-level operation (no claim distinguishes
  the sub-millisecond distinct readings a single operation makes).
* Fallible I/O (the session-file write) is driven by an explicit
  `WriteOutcome` argument; the durable copy of the session is tracked in an
  `Env.disk` field so that persistence behaviour is observable.
* `hashlib.md5` is embedded as an executable MD5 over byte lists
  (machine words are `Nat` reduced `% 2^32`), together with UTF-8 encoding
  of strings, so `SessionManager.generate_email_id` is modelled exactly.
* Python functions that can raise are modelled with `Except`.
-/

/-! ## MD5 (embedding of `hashlib.md5(...).hexdigest()`)

Faithful executable MD5 over a list of bytes (each a `Nat < 256`),
32-bit words represented as `Nat` with explicit reduction modulo `2^32`. -/

/-- The word modulus of MD5, `2^32`. -/
def M32 : Nat := 4294967296

/-- Left-rotate a 32-bit word (`x < 2^32`) by `c` bits (`c ≤ 32`). -/
def rotl32 (x c : Nat) : Nat := (x * 2 ^ c + x / 2 ^ (32 - c)) % M32

/-- Bitwise complement within 32 bits (for `x < 2^32`). -/
def bnot32 (x : Nat) : Nat := (M32 - 1) - x

/-- The 64 MD5 sine-derived constants `K[i] = ⌊|sin(i+1)| · 2^32⌋`. -/
def md5K : List Nat :=
  [3614090360, 3905402710, 606105819, 3250441966, 4118548399, 1200080426,
   2821735955, 4249261313, 1770035416, 2336552879, 4294925233, 2304563134,
   1804603682, 4254626195, 2792965006, 1236535329, 4129170786, 3225465664,
   643717713, 3921069994, 3593408605, 38016083, 3634488961, 3889429448,
   568446438, 3275163606, 4107603335, 1163531501, 2850285829, 4243563512,
   1735328473, 2368359562, 4294588738, 2272392833, 1839030562, 4259657740,
   2763975236, 1272893353, 4139469664, 3200236656, 681279174, 3936430074,
   3572445317, 76029189, 3654602809, 3873151461, 530742520, 3299628645,
   4096336452, 1126891415, 2878612391, 4237533241, 1700485571, 2399980690,
   4293915773, 2240044497, 1873313359, 4264355552, 2734768916, 1309151649,
   4149444226, 3174756917, 718787259, 3951481745]

/-- The 64 per-round left-rotation amounts of MD5. -/
def md5S : List Nat :=
  [7, 12, 17, 22, 7, 12, 17, 22, 7, 12, 17, 22, 7, 12, 17, 22,
   5, 9, 14, 20, 5, 9, 14, 20, 5, 9, 14, 20, 5, 9, 14, 20,
   4, 11, 16, 23, 4, 11, 16, 23, 4, 11, 16, 23, 4, 11, 16, 23,
   6, 10, 15, 21, 6, 10, 15, 21, 6, 10, 15, 21, 6, 10, 15, 21]

/-- Little-endian value of a byte list. -/
def leNat : List Nat → Nat
  | [] => 0
  | b :: t => b + 256 * leNat t

/-- The `j`-th little-endian 32-bit word of a 64-byte chunk. -/
def md5Word (chunk : List Nat) (j : Nat) : Nat :=
  leNat ((chunk.drop (4 * j)).take 4)

/-- Running state of the MD5 compression function. -/
structure MD5State where
  a : Nat
  b : Nat
  c : Nat
  d : Nat
deriving Repr, DecidableEq

/-- One of the 64 rounds of the MD5 compression function. -/
def md5Round (chunk : List Nat) (st : MD5State) (i : Nat) : MD5State :=
  let f :=
    if i < 16 then Nat.lor (Nat.land st.b st.c) (Nat.land (bnot32 st.b) st.d)
    else if i < 32 then Nat.lor (Nat.land st.d st.b) (Nat.land (bnot32 st.d) st.c)
    else if i < 48 then Nat.xor (Nat.xor st.b st.c) st.d
    else Nat.xor st.c (Nat.lor st.b (bnot32 st.d))
  let g :=
    if i < 16 then i
    else if i < 32 then (5 * i + 1) % 16
    else if i < 48 then (3 * i + 5) % 16
    else (7 * i) % 16
  let f2 := (f + st.a + md5K.getD i 0 + md5Word chunk g) % M32
  { a := st.d, b := (st.b + rotl32 f2 (md5S.getD i 0)) % M32, c := st.b, d := st.c }

/-- Process one 64-byte chunk: 64 rounds, then add into the running state. -/
def md5Chunk (st : MD5State) (chunk : List Nat) : MD5State :=
  let r := (List.range 64).foldl (md5Round chunk) st
  { a := (st.a + r.a) % M32, b := (st.b + r.b) % M32,
    c := (st.c + r.c) % M32, d := (st.d + r.d) % M32 }

/-- MD5 padding: append `0x80`, zero bytes to 56 mod 64, then the 64-bit
little-endian bit length of the original message. -/
def md5Pad (msg : List Nat) : List Nat :=
  let l := msg.length
  let padLen := (120 - (l + 1) % 64) % 64
  msg ++ [128] ++ List.replicate padLen 0
      ++ (List.range 8).map (fun i => 8 * l / 256 ^ i % 256)

/-- Split a byte list into 64-byte chunks (structural recursion on a fuel
bound; the fuel `l.length` always suffices since each step consumes at
least one byte). -/
def chunks64Go : Nat → List Nat → List (List Nat)
  | 0, _ => []
  | _, [] => []
  | fuel + 1, b :: t => ((b :: t).take 64) :: chunks64Go fuel ((b :: t).drop 64)

/-- Split a byte list into 64-byte chunks. -/
def chunks64 (l : List Nat) : List (List Nat) := chunks64Go l.length l

/-- The four little-endian bytes of a 32-bit word. -/
def bytesOfWord (w : Nat) : List Nat :=
  [w % 256, w / 256 % 256, w / 65536 % 256, w / 16777216 % 256]

/-- The lowercase hexadecimal digit character for a nibble `n < 16`
(codepoint 48 is the digit zero, 97 the letter a). -/
def hexDigit (n : Nat) : Char :=
  if n < 10 then Char.ofNat (48 + n) else Char.ofNat (87 + n)

/-- The sixteen hexadecimal digit characters, lowercase. -/
def hexChars : List Char := (List.range 16).map hexDigit

/-- The two hex characters of a byte, high nibble first. -/
def hexOfByte (b : Nat) : List Char := [hexDigit (b / 16), hexDigit (b % 16)]

/-- The 16 digest bytes produced from a final MD5 state. -/
def md5DigestBytes (st : MD5State) : List Nat :=
  bytesOfWord st.a ++ bytesOfWord st.b ++ bytesOfWord st.c ++ bytesOfWord st.d

/-- The initial MD5 state. -/
def md5Init : MD5State :=
  { a := 1732584193, b := 4023233417, c := 2562383102, d := 271733878 }

/-- The 32 hexdigest characters of the MD5 of a byte list
(`hashlib.md5(bytes).hexdigest()`). -/
def md5HexChars (msg : List Nat) : List Char :=
  (md5DigestBytes ((chunks64 (md5Pad msg)).foldl md5Chunk md5Init)).flatMap hexOfByte

/-- UTF-8 encoding of one character, as a list of bytes. -/
def utf8Char (c : Char) : List Nat :=
  let n := c.toNat
  if n < 128 then [n]
  else if n < 2048 then [192 + n / 64, 128 + n % 64]
  else if n < 65536 then [224 + n / 4096, 128 + n / 64 % 64, 128 + n % 64]
  else [240 + n / 262144, 128 + n / 4096 % 64, 128 + n / 64 % 64, 128 + n % 64]

/-- UTF-8 encoding of a string (`str.encode('utf-8')`). -/
def utf8Bytes (s : String) : List Nat := s.data.flatMap utf8Char

/-! ## Emails and `SessionManager.generate_email_id`

`generate_email_id` (session_manager.py lines 291-305) concatenates the
email's `subject`, `from` and `timestamp` fields (each defaulted to `''`
via `dict.get`), MD5-hashes the UTF-8 bytes, keeps the first 12 hexdigest
characters and prefixes `'email_'`. -/

/-- An email dictionary. `Option` mirrors `dict.get(key, default)` on a
possibly missing key; `fromAddr` renders the Python key `'from'`. -/
structure Email where
  subject : Option String
  fromAddr : Option String
  body : Option String
  timestamp : Option String
deriving Repr, DecidableEq

namespace SessionManager

/-- The content string `f"{subject}{from}{timestamp}"` hashed by
`generate_email_id`. -/
def emailContent (email : Email) : String :=
  email.subject.getD "" ++ email.fromAddr.getD "" ++ email.timestamp.getD ""

/-- Model of `SessionManager.generate_email_id`. -/
def generate_email_id (email : Email) : String :=
  "email_" ++ String.mk ((md5HexChars (utf8Bytes (emailContent email))).take 12)

end SessionManager

/-! ## Session state (session_manager.py)

Python dicts become association lists with Python's upsert semantics.
`datetime.now()` readings are explicit `now : String` arguments.  The
session-file write in `save_session` is driven by a `WriteOutcome`
argument, and `Env.disk` holds the last successfully persisted copy of the
session, so durability is observable in the model. -/

/-- Lookup in a string-keyed association list (Python `d[k]` / `k in d`). -/
def dictGet {V : Type} : List (String × V) → String → Option V
  | [], _ => none
  | (k', v) :: t, k => if k' = k then some v else dictGet t k

/-- Python dict assignment `d[k] = v`: replace in place if present,
append otherwise. -/
def dictUpsert {V : Type} : List (String × V) → String → V → List (String × V)
  | [], k, v => [(k, v)]
  | (k', v') :: t, k, v =>
      if k' = k then (k, v) :: t else (k', v') :: dictUpsert t k v

/-- One entry of `session_data['history']`.  `details` renders the
string-valued payload of the entry; nested payloads (such as the metadata
dict recorded by `cache_result`) are opaque to every claim and are not
rendered. -/
structure HistoryEntry where
  timestamp : String
  action : String
  details : List (String × String)
  result : Option String
deriving Repr, DecidableEq

/-- One entry of `session_data['cache']`. -/
structure CacheEntry (α : Type) where
  value : α
  cached_at : String
  metadata : Option (List (String × String))
deriving Repr, DecidableEq

/-- One entry of `session_data['processed_emails']`. -/
structure ProcessedEntry (β : Type) where
  analysis : β
  processed_at : String
deriving Repr, DecidableEq

/-- The `session_data` dictionary.  `α` is the (caller-defined, opaque)
type of cached values, `β` the type of stored analysis results. -/
structure SessionData (α β : Type) where
  session_id : Option String
  created_at : Option String
  last_updated : Option String
  processed_emails : List (String × ProcessedEntry β)
  cache : List (String × CacheEntry α)
  history : List HistoryEntry
deriving Repr, DecidableEq

/-- Outcome of the file-system operations attempted by `save_session`:
the `mkdir` (before `last_updated` is stamped) or the `open`/`write`
(after) may raise `IOError`, or both may succeed. -/
inductive WriteOutcome
  | okWrite
  | writeFail
  | mkdirFail
deriving Repr, DecidableEq

/-- In-memory session plus the last successfully persisted copy. -/
structure Env (α β : Type) where
  data : SessionData α β
  disk : Option (SessionData α β)
deriving Repr, DecidableEq

namespace SessionManager

/-- Model of `SessionManager.save_session` (lines 104-126): stamps `last_updated`
(after the `mkdir`, before the write), writes the whole session, catches
`IOError` and returns `False` instead of raising. -/
def save_session {α β : Type} (env : Env α β) (now : String) (w : WriteOutcome) :
    Env α β × Bool :=
  match w with
  | .mkdirFail => (env, false)
  | .writeFail => (⟨{ env.data with last_updated := some now }, env.disk⟩, false)
  | .okWrite =>
      let d := { env.data with last_updated := some now }
      (⟨d, some d⟩, true)

/-- The append-then-truncate step shared by `add_to_history` and
`_add_to_history` (lines 144-148 and 162-166): append the entry, then keep
only the last 1000 entries (`history[-1000:]`) when the length exceeds
1000. -/
def appendTruncate (h : List HistoryEntry) (e : HistoryEntry) : List HistoryEntry :=
  let h2 := h ++ [e]
  if h2.length > 1000 then h2.drop (h2.length - 1000) else h2

/-- Model of `SessionManager._add_to_history` (lines 153-166): append-and-truncate
without the auto-save. -/
def addToHistoryPriv {α β : Type} (d : SessionData α β) (action : String)
    (details : List (String × String)) (result : Option String) (now : String) :
    SessionData α β :=
  { d with history := appendTruncate d.history ⟨now, action, details, result⟩ }

/-- Model of `SessionManager.add_to_history` (lines 128-151): append-and-truncate,
then auto-save (the save's boolean result is discarded, as in the source
where `add_to_history` returns `None`). -/
def add_to_history {α β : Type} (env : Env α β) (action : String)
    (details : List (String × String)) (result : Option String) (now : String)
    (w : WriteOutcome) : Env α β :=
  (save_session ⟨addToHistoryPriv env.data action details result now, env.disk⟩ now w).1

/-- Model of `SessionManager.cache_result` (lines 168-187): upsert
`cache[key] = ⟨value, cached_at, metadata⟩`, then record a `cache_set`
history entry (which auto-saves). -/
def cache_result {α β : Type} (env : Env α β) (key : String) (value : α)
    (metadata : Option (List (String × String))) (now : String) (w : WriteOutcome) :
    Env α β :=
  let env1 : Env α β :=
    ⟨{ env.data with cache := dictUpsert env.data.cache key ⟨value, now, metadata⟩ },
     env.disk⟩
  add_to_history env1 "cache_set" [("key", key)] none now w

/-- Model of `SessionManager.get_cached_result` (lines 189-208): return the stored
`value` on a hit and `None` on a miss, recording a `cache_hit` or
`cache_miss` history entry either way. -/
def get_cached_result {α β : Type} (env : Env α β) (key : String) (now : String)
    (w : WriteOutcome) : Option α × Env α β :=
  match dictGet env.data.cache key with
  | some ce =>
      (some ce.value,
       add_to_history env "cache_hit" [("key", key), ("cached_at", ce.cached_at)] none now w)
  | none => (none, add_to_history env "cache_miss" [("key", key)] none now w)

/-- Model of `SessionManager.mark_email_processed` (lines 210-226).  `subjectOf`
renders `analysis_result.get('subject', 'Unknown')` for the opaque
analysis type `β` (for the agent's analysis records it returns the
`subject` field). -/
def mark_email_processed {α β : Type} (env : Env α β) (email_id : String)
    (analysis : β) (subjectOf : β → Option String) (now : String) (w : WriteOutcome) :
    Env α β :=
  let env1 : Env α β :=
    ⟨{ env.data with
        processed_emails := dictUpsert env.data.processed_emails email_id ⟨analysis, now⟩ },
     env.disk⟩
  add_to_history env1 "email_processed"
    [("email_id", email_id), ("subject", (subjectOf analysis).getD "Unknown")] none now w

/-- Model of `SessionManager.is_email_processed` (lines 228-238). -/
def is_email_processed {α β : Type} (d : SessionData α β) (email_id : String) : Bool :=
  (dictGet d.processed_emails email_id).isSome

/-- Model of `SessionManager.get_email_analysis` (lines 240-252). -/
def get_email_analysis {α β : Type} (d : SessionData α β) (email_id : String) :
    Option β :=
  (dictGet d.processed_emails email_id).map (·.analysis)

end SessionManager

/-! ## Loading (session_manager.py lines 51-102)

`load_session` reads the session file.  The relevant shapes of the file's
content: absent; unreadable or not valid JSON (`IOError` /
`JSONDecodeError`, both caught); valid JSON that is not an object (the
subsequent `self.session_data['processed_emails'] = {}` key assignment
then raises an uncaught `TypeError`); or a JSON object, possibly missing
keys (modelled with right-typed optional fields). -/

/-- Shape of the session file's content as seen by `load_session`. -/
inductive FileState (α β : Type)
  | absent
  | malformed
  | parsedNonDict
  | parsedDict (session_id created_at last_updated : Option String)
      (processed_emails : Option (List (String × ProcessedEntry β)))
      (cache : Option (List (String × CacheEntry α)))
      (history : Option (List HistoryEntry))

/-- An uncaught Python exception escaping `load_session`. -/
inductive PyExn
  | typeError
deriving Repr, DecidableEq

namespace SessionManager

/-- Model of `SessionManager._create_new_session` (lines 87-102): fresh session
with id `f"session_{int(datetime.now().timestamp())}"`, a
`session_created` history entry, then an auto-save. -/
def create_new_session {α β : Type} (disk0 : Option (SessionData α β)) (now : String)
    (w : WriteOutcome) : Env α β :=
  let sid := "session_" ++ now
  let d : SessionData α β := ⟨some sid, some now, some now, [], [], []⟩
  let d1 := addToHistoryPriv d "session_created"
    [("session_id", sid), ("created_at", now)] none now
  (save_session ⟨d1, disk0⟩ now w).1

/-- Model of `SessionManager.load_session` (lines 51-85). -/
def load_session {α β : Type} (fs : FileState α β) (disk0 : Option (SessionData α β))
    (now : String) (w : WriteOutcome) : Except PyExn (Env α β) :=
  match fs with
  | .absent => .ok (create_new_session disk0 now w)
  | .malformed => .ok (create_new_session disk0 now w)
  | .parsedNonDict => .error .typeError
  | .parsedDict sid ca lu pe c h =>
      let d : SessionData α β := ⟨sid, ca, lu, pe.getD [], c.getD [], h.getD []⟩
      let d1 := addToHistoryPriv d "session_loaded"
        [("session_id", sid.getD "None"), ("loaded_at", now)] none now
      .ok ⟨d1, disk0⟩

end SessionManager

/-! ## Retry with exponential backoff (retry_logic.py lines 44-93)

The wrapped operation is modelled as `op : Nat → Except ε α`, giving the
outcome of its `i`-th invocation (`i` counted from 0).  Delays are exact
rationals (`base_delay * 2 ** attempt` is exact float arithmetic for the
doubling, and `min` is exact).  The trace records the number of
invocations, the sleeps performed, and the arguments passed to the
optional `on_retry` callback (`(attempt + 1, exception)`; the callback is
invoked exactly at those points when one is supplied). -/

/-- Observable trace of one `retry_with_backoff`-wrapped call.
`result = .error none` renders the source's "should never reach here"
branch (`raise last_exception` with `last_exception = None`), which is
unreachable from `retry_with_backoff` since the loop always runs at least
once. -/
structure RetryTrace (ε α : Type) where
  result : Except (Option ε) α
  invocations : Nat
  delays : List ℚ
  retryCalls : List (Nat × ε)
deriving Repr

/-- The backoff delay before the retry that follows failed attempt `a`:
`min(base_delay * (2 ** attempt), max_delay)` (line 72). -/
def backoffDelay (base maxd : ℚ) (a : Nat) : ℚ := min (base * 2 ^ a) maxd

/-- The loop `for attempt in range(max_retries + 1)` of the wrapper
(lines 49-87), from attempt number `a` with `fuel` iterations left. -/
def retryGo {ε α : Type} (op : Nat → Except ε α) (maxR : Nat) (base maxd : ℚ) :
    Nat → Nat → RetryTrace ε α
  | _, 0 => ⟨.error none, 0, [], []⟩
  | a, fuel + 1 =>
      match op a with
      | .ok v => ⟨.ok v, 1, [], []⟩
      | .error e =>
          if a = maxR then ⟨.error (some e), 1, [], []⟩
          else
            let t := retryGo op maxR base maxd (a + 1) fuel
            ⟨t.result, t.invocations + 1,
             backoffDelay base maxd a :: t.delays, (a + 1, e) :: t.retryCalls⟩

/-- Model of `retry_with_backoff(max_retries, base_delay, max_delay, ...)` applied
to an operation: the full wrapped call. -/
def retry_with_backoff {ε α : Type} (maxR : Nat) (base maxd : ℚ)
    (op : Nat → Except ε α) : RetryTrace ε α :=
  retryGo op maxR base maxd 0 (maxR + 1)

/-! ## Email analysis tools and results

The spec (§1, §6) treats the analysis functions
(`classify_email_priority`, `extract_action_items`,
`extract_meeting_requests`) as external collaborators with opaque
results; they are modelled as parameters that may raise (`Except`).
`priorityOf` renders `classification.get('priority', 'unknown')` for the
opaque classification type. -/

/-- Result dict of `extract_action_items`; `action_items` mirrors
`result.get('action_items', [])`. -/
structure ActionItemsOut (δ : Type) where
  action_items : Option (List δ)
deriving Repr, DecidableEq

/-- Result dict of `extract_meeting_requests` as read by the async
orchestrator; `meetings_detected` mirrors
`result.get('meetings_detected', False)`. -/
structure MeetingsOut where
  meetings_detected : Option Bool
deriving Repr, DecidableEq

/-- The three analysis tools, with an opaque classification type `γ`,
action-item type `δ` and meeting-request result type `μ`. -/
structure AgentTools (ε γ δ μ : Type) where
  classify : String → String → String → Except ε γ
  extract_action_items : String → String → Except ε (ActionItemsOut δ)
  extract_meeting_requests : String → String → Except ε μ
  priorityOf : γ → Option String

/-- All three tool calls made on `email` succeed. -/
def toolsOkOn {ε γ δ μ : Type} (tools : AgentTools ε γ δ μ) (email : Email) : Prop :=
  (tools.classify (email.subject.getD "") (email.fromAddr.getD "")
      (email.body.getD "")).isOk = true ∧
  (tools.extract_action_items (email.subject.getD "") (email.body.getD "")).isOk = true ∧
  (tools.extract_meeting_requests (email.subject.getD "") (email.body.getD "")).isOk = true

/-! ## Async orchestrator (async_orchestrator.py)

The wall-clock `processing_time` field of the per-email result dicts is
real time and is not representable in this embedding; the remaining
(deterministic) fields are modelled.  `asyncio.gather(*tasks)` returns the
task results in task-submission order; with `return_exceptions` left at
its default, a raising task makes the whole `gather` raise.  (Which
exception is raised first is temporally nondeterministic; the model picks
the lowest-index failing task.  Claims use the error case only through
"some exception propagates".) -/

/-- The deterministic fields of one per-email result dict built by both
`process_emails_parallel` and `process_emails_sequential`. -/
structure OrchResult (γ δ : Type) where
  email_index : Nat
  subject : String
  fromAddr : String
  classification : γ
  action_items : List δ
  meeting_requests : Bool
deriving Repr, DecidableEq

namespace AsyncOrchestrator

/-- Model of `AsyncOrchestrator.analyze_email_async` (lines 42-105): the
`_analyze_email` body run for one email in a worker thread. -/
def analyze_email_async {ε γ δ : Type} (tools : AgentTools ε γ δ MeetingsOut)
    (email : Email) (email_index : Nat) : Except ε (OrchResult γ δ) :=
  match tools.classify (email.subject.getD "") (email.fromAddr.getD "")
      (email.body.getD "") with
  | .error e => .error e
  | .ok classification =>
    match tools.extract_action_items (email.subject.getD "") (email.body.getD "") with
    | .error e => .error e
    | .ok air =>
      match tools.extract_meeting_requests (email.subject.getD "")
          (email.body.getD "") with
      | .error e => .error e
      | .ok mrr =>
          .ok
            { email_index := email_index
              subject := email.subject.getD ""
              fromAddr := email.fromAddr.getD ""
              classification := classification
              action_items := air.action_items.getD []
              meeting_requests := mrr.meetings_detected.getD false }

/-- Model of `asyncio.gather(*tasks)`: all results in task order, or the exception
of a failing task (lowest index in the model). -/
def gatherE {ε σ : Type} : List (Except ε σ) → Except ε (List σ)
  | [] => .ok []
  | .error e :: _ => .error e
  | .ok v :: t => (gatherE t).map (v :: ·)

/-- Model of `AsyncOrchestrator.process_emails_parallel` (lines 107-140): one task
per email, in submission order, joined by `asyncio.gather`. -/
def process_emails_parallel {ε γ δ : Type} (tools : AgentTools ε γ δ MeetingsOut)
    (emails : List Email) : Except ε (List (OrchResult γ δ)) :=
  gatherE (emails.enum.map (fun p => analyze_email_async tools p.2 p.1))

/-- The body of the `for index, email in enumerate(emails)` loop of
`process_emails_sequential` (lines 157-194), with `results` as the
accumulator; an uncaught exception aborts the loop and propagates,
discarding the results accumulated so far. -/
def sequentialGo {ε γ δ : Type} (tools : AgentTools ε γ δ MeetingsOut) :
    Nat → List (OrchResult γ δ) → List Email → Except ε (List (OrchResult γ δ))
  | _, acc, [] => .ok acc
  | index, acc, email :: rest =>
      match tools.classify (email.subject.getD "") (email.fromAddr.getD "")
          (email.body.getD "") with
      | .error e => .error e
      | .ok classification =>
        match tools.extract_action_items (email.subject.getD "") (email.body.getD "") with
        | .error e => .error e
        | .ok air =>
          match tools.extract_meeting_requests (email.subject.getD "")
              (email.body.getD "") with
          | .error e => .error e
          | .ok mrr =>
              sequentialGo tools (index + 1)
                (acc ++
                  [{ email_index := index
                     subject := email.subject.getD ""
                     fromAddr := email.fromAddr.getD ""
                     classification := classification
                     action_items := air.action_items.getD []
                     meeting_requests := mrr.meetings_detected.getD false }])
                rest

/-- Model of `AsyncOrchestrator.process_emails_sequential` (lines 142-202). -/
def process_emails_sequential {ε γ δ : Type} (tools : AgentTools ε γ δ MeetingsOut)
    (emails : List Email) : Except ε (List (OrchResult γ δ)) :=
  sequentialGo tools 0 [] emails

end AsyncOrchestrator

/-! ## Stateful email agent (email_intelligence_agent.py lines 71-228)

`StatefulEmailAgent.process_email` computes the email's identity, returns
the stored analysis (with `from_cache` flipped to `True`) when the email
is already processed, and otherwise runs the three tools, stores the
result under `processed_emails` and the generic cache, and returns it.
State mutations made before an uncaught tool exception are kept (the
session manager is mutated in place), and the exception propagates. -/

/-- The analysis-result dict built by `StatefulEmailAgent.process_email`
(lines 150-160).  `fromAddr` renders the Python key `'from'`. -/
structure AnalysisResult (γ δ μ : Type) where
  email_id : String
  subject : String
  fromAddr : String
  timestamp : String
  classification : γ
  action_items : List δ
  meeting_requests : μ
  from_cache : Bool
  processed_at : Option String
deriving Repr, DecidableEq

/-- The agent's session environment: cached values and stored analyses
are both `AnalysisResult`s. -/
def AgentEnv (γ δ μ : Type) : Type :=
  Env (AnalysisResult γ δ μ) (AnalysisResult γ δ μ)

namespace StatefulEmailAgent

/-- Model of `StatefulEmailAgent.process_email` (lines 100-179). -/
def process_email {ε γ δ μ : Type} (tools : AgentTools ε γ δ μ)
    (env : AgentEnv γ δ μ) (email : Email) (now : String) (w : WriteOutcome) :
    AgentEnv γ δ μ × Except ε (AnalysisResult γ δ μ) :=
  let email_id := SessionManager.generate_email_id email
  match dictGet env.data.processed_emails email_id with
  | some pe =>
      let env1 := SessionManager.add_to_history env "email_cache_hit"
        [("email_id", email_id), ("subject", email.subject.getD "Unknown")] none now w
      (env1, .ok { pe.analysis with from_cache := true, email_id := email_id })
  | none =>
      let env1 := SessionManager.add_to_history env "email_processing_start"
        [("email_id", email_id), ("subject", email.subject.getD "Unknown")] none now w
      match tools.classify (email.subject.getD "") (email.fromAddr.getD "")
          (email.body.getD "") with
      | .error e => (env1, .error e)
      | .ok classification =>
        match tools.extract_action_items (email.subject.getD "") (email.body.getD "") with
        | .error e => (env1, .error e)
        | .ok air =>
          match tools.extract_meeting_requests (email.subject.getD "")
              (email.body.getD "") with
          | .error e => (env1, .error e)
          | .ok mrr =>
            let analysis : AnalysisResult γ δ μ :=
              { email_id := email_id
                subject := email.subject.getD ""
                fromAddr := email.fromAddr.getD ""
                timestamp := email.timestamp.getD ""
                classification := classification
                action_items := air.action_items.getD []
                meeting_requests := mrr
                from_cache := false
                processed_at := env1.data.last_updated }
            let env2 := SessionManager.mark_email_processed env1 email_id analysis
              (fun r => some r.subject) now w
            let env3 := SessionManager.cache_result env2 ("email_analysis_" ++ email_id)
              analysis (some [("type", "email_analysis"), ("email_id", email_id)]) now w
            let env4 := SessionManager.add_to_history env3 "email_processing_complete"
              [("email_id", email_id),
               ("priority", (tools.priorityOf classification).getD "unknown"),
               ("action_items_count", toString (air.action_items.getD []).length)]
              none now w
            (env4, .ok analysis)

/-- The `for email in emails` loop of `process_emails` (lines 191-210):
append each result, counting cache hits and fresh analyses; at the end
record the `batch_processing_complete` entry (its `total_emails` field is
`len(emails)`, which equals the number of accumulated results).  An
uncaught exception from `process_email` aborts the loop and propagates,
keeping the state mutations made so far. -/
def process_emails_go {ε γ δ μ : Type} (tools : AgentTools ε γ δ μ) (now : String)
    (w : WriteOutcome) (env : AgentEnv γ δ μ) (acc : List (AnalysisResult γ δ μ))
    (cached processed : Nat) :
    List Email → AgentEnv γ δ μ × Except ε (List (AnalysisResult γ δ μ))
  | [] =>
      let env1 := SessionManager.add_to_history env "batch_processing_complete"
        [("total_emails", toString acc.length), ("cached", toString cached),
         ("processed", toString processed)] none now w
      (env1, .ok acc)
  | email :: rest =>
      match process_email tools env email now w with
      | (env1, .error e) => (env1, .error e)
      | (env1, .ok result) =>
          if result.from_cache then
            process_emails_go tools now w env1 (acc ++ [result]) (cached + 1) processed rest
          else
            process_emails_go tools now w env1 (acc ++ [result]) cached (processed + 1) rest

/-- Model of `StatefulEmailAgent.process_emails` (lines 181-210). -/
def process_emails {ε γ δ μ : Type} (tools : AgentTools ε γ δ μ)
    (env : AgentEnv γ δ μ) (emails : List Email) (now : String) (w : WriteOutcome) :
    AgentEnv γ δ μ × Except ε (List (AnalysisResult γ δ μ)) :=
  process_emails_go tools now w env [] 0 0 emails

end StatefulEmailAgent

namespace SessionManager

theorem appendTruncate_eq (h : List HistoryEntry) (e : HistoryEntry) :
    appendTruncate h e = (h ++ [e]).drop ((h.length + 1) - 1000) := by
  unfold appendTruncate
  dsimp only
  split
  next hc => simp [List.length_append]
  next hc =>
    have h0 : h.length + 1 - 1000 = 0 := by
      simp [List.length_append] at hc; omega
    simp [h0]

theorem appendTruncate_length (h : List HistoryEntry) (e : HistoryEntry) :
    (appendTruncate h e).length = min (h.length + 1) 1000 := by
  rw [appendTruncate_eq, List.length_drop]
  simp only [List.length_append, List.length_cons, List.length_nil]
  omega

theorem foldl_appendTruncate (l : List HistoryEntry) (h0 : List HistoryEntry)
    (hlen : h0.length ≤ 1000) :
    l.foldl appendTruncate h0 = (h0 ++ l).drop ((h0.length + l.length) - 1000) := by
  induction l generalizing h0 with
  | nil =>
      simp only [List.foldl_nil, List.append_nil, List.length_nil]
      rw [show h0.length + 0 - 1000 = 0 from by omega, List.drop_zero]
  | cons e t ih =>
      rw [List.foldl_cons]
      have h1len : (appendTruncate h0 e).length ≤ 1000 := by
        rw [appendTruncate_length]; omega
      rw [ih _ h1len, appendTruncate_length]
      rcases Nat.lt_or_ge h0.length 1000 with hlt | hge
      · have hnt : appendTruncate h0 e = h0 ++ [e] := by
          rw [appendTruncate_eq]
          rw [show h0.length + 1 - 1000 = 0 from by omega, List.drop_zero]
        rw [hnt, List.append_assoc, List.singleton_append]
        simp only [List.length_cons]
        rw [show min (h0.length + 1) 1000 + t.length - 1000
              = h0.length + (t.length + 1) - 1000 from by omega]
      · have h1000 : h0.length = 1000 := by omega
        have hnt : appendTruncate h0 e = (h0 ++ [e]).drop 1 := by
          rw [appendTruncate_eq, h1000]
        rw [hnt]
        have hle : (1 : ℕ) ≤ (h0 ++ [e]).length := by simp
        rw [← List.drop_append_of_le_length hle, List.drop_drop]
        rw [List.append_assoc, List.singleton_append]
        simp only [List.length_cons]
        rw [show 1 + (min (h0.length + 1) 1000 + t.length - 1000)
              = h0.length + (t.length + 1) - 1000 from by omega]

end SessionManager

namespace SessionManager

@[simp] theorem add_to_history_data_cache {α β : Type} (env : Env α β) (a : String)
    (d : List (String × String)) (r : Option String) (now : String) (w : WriteOutcome) :
    (add_to_history env a d r now w).data.cache = env.data.cache := by
  cases w <;> rfl

@[simp] theorem add_to_history_data_processed {α β : Type} (env : Env α β) (a : String)
    (d : List (String × String)) (r : Option String) (now : String) (w : WriteOutcome) :
    (add_to_history env a d r now w).data.processed_emails = env.data.processed_emails := by
  cases w <;> rfl

@[simp] theorem add_to_history_data_history {α β : Type} (env : Env α β) (a : String)
    (d : List (String × String)) (r : Option String) (now : String) (w : WriteOutcome) :
    (add_to_history env a d r now w).data.history
      = appendTruncate env.data.history ⟨now, a, d, r⟩ := by
  cases w <;> rfl

@[simp] theorem cache_result_data_cache {α β : Type} (env : Env α β) (k : String) (v : α)
    (m : Option (List (String × String))) (now : String) (w : WriteOutcome) :
    (cache_result env k v m now w).data.cache
      = dictUpsert env.data.cache k ⟨v, now, m⟩ := by
  cases w <;> rfl

@[simp] theorem cache_result_data_processed {α β : Type} (env : Env α β) (k : String)
    (v : α) (m : Option (List (String × String))) (now : String) (w : WriteOutcome) :
    (cache_result env k v m now w).data.processed_emails = env.data.processed_emails := by
  cases w <;> rfl

@[simp] theorem mark_email_processed_data_processed {α β : Type} (env : Env α β)
    (eid : String) (b : β) (sOf : β → Option String) (now : String) (w : WriteOutcome) :
    (mark_email_processed env eid b sOf now w).data.processed_emails
      = dictUpsert env.data.processed_emails eid ⟨b, now⟩ := by
  cases w <;> rfl

@[simp] theorem mark_email_processed_data_cache {α β : Type} (env : Env α β)
    (eid : String) (b : β) (sOf : β → Option String) (now : String) (w : WriteOutcome) :
    (mark_email_processed env eid b sOf now w).data.cache = env.data.cache := by
  cases w <;> rfl

end SessionManager

theorem dictGet_upsert_self {V : Type} (m : List (String × V)) (k : String) (v : V) :
    dictGet (dictUpsert m k v) k = some v := by
  induction m with
  | nil => simp [dictUpsert, dictGet]
  | cons p t ih =>
      obtain ⟨k', v'⟩ := p
      by_cases h : k' = k
      · simp [dictUpsert, h, dictGet]
      · simp [dictUpsert, h, dictGet, ih]

theorem dictGet_upsert_ne {V : Type} (m : List (String × V)) (k k' : String) (v : V)
    (h : k ≠ k') : dictGet (dictUpsert m k v) k' = dictGet m k' := by
  induction m with
  | nil => simp [dictUpsert, dictGet, h]
  | cons p t ih =>
      obtain ⟨k0, v0⟩ := p
      by_cases h0 : k0 = k
      · subst h0
        simp [dictUpsert, dictGet, h]
      · by_cases h1 : k0 = k'
        · subst h1
          simp [dictUpsert, dictGet, h0, Ne.symm h]
        · simp [dictUpsert, h0, dictGet, h1, ih]

namespace SessionManager

theorem get_cached_result_hit {α β : Type} (env : Env α β) (k : String) (now : String)
    (w : WriteOutcome) (ce : CacheEntry α) (h : dictGet env.data.cache k = some ce) :
    (get_cached_result env k now w).1 = some ce.value := by
  simp [get_cached_result, h]

theorem get_cached_result_miss {α β : Type} (env : Env α β) (k : String) (now : String)
    (w : WriteOutcome) (h : dictGet env.data.cache k = none) :
    (get_cached_result env k now w).1 = none := by
  simp [get_cached_result, h]

end SessionManager

/-! ## Claim C2: the history bound -/

/-- The arguments of one `add_to_history` call (plus the ambient
`datetime.now()` reading and write outcome of its auto-save). -/
structure HistCall where
  action : String
  details : List (String × String)
  result : Option String
  now : String
  w : WriteOutcome

/-- The history entry appended by a call. -/
def mkEntry (c : HistCall) : HistoryEntry := ⟨c.now, c.action, c.details, c.result⟩

/-- Iterating `add_to_history` over a list of calls. -/
def histStep {α β : Type} (env : Env α β) (c : HistCall) : Env α β :=
  SessionManager.add_to_history env c.action c.details c.result c.now c.w

theorem foldl_histStep {α β : Type} (calls : List HistCall) (env : Env α β) :
    (calls.foldl histStep env).data.history
      = (calls.map mkEntry).foldl SessionManager.appendTruncate env.data.history := by
  induction calls generalizing env with
  | nil => rfl
  | cons c t ih =>
      rw [List.foldl_cons, List.map_cons, List.foldl_cons, ih]
      rw [show (histStep env c).data.history
            = SessionManager.appendTruncate env.data.history (mkEntry c) from
          SessionManager.add_to_history_data_history env c.action c.details c.result c.now c.w]

/-- Claim C2. After any single `add_to_history` call the history has length
at most 1000; and iterating `add_to_history` 1500 times from an empty
history leaves exactly the entries of the last 1000 calls, in append
order (the oldest 500 evicted). -/
theorem c2_history_bound :
    (∀ (α β : Type) (env : Env α β) (action : String)
        (details : List (String × String)) (result : Option String)
        (now : String) (w : WriteOutcome),
        ((SessionManager.add_to_history env action details result now w).data.history).length
          ≤ 1000) ∧
    (∀ (α β : Type) (env : Env α β) (calls : List HistCall),
        env.data.history = [] → calls.length = 1500 →
        (calls.foldl histStep env).data.history = (calls.map mkEntry).drop 500 ∧
        ((calls.foldl histStep env).data.history).length = 1000) := by
  constructor
  · intro α β env a d r now w
    rw [SessionManager.add_to_history_data_history, SessionManager.appendTruncate_length]
    omega
  · intro α β env calls hemp hlen
    have h1 : (calls.foldl histStep env).data.history = (calls.map mkEntry).drop 500 := by
      rw [foldl_histStep, hemp,
        SessionManager.foldl_appendTruncate _ _ (by simp), List.nil_append]
      rw [show (([] : List HistoryEntry).length + (calls.map mkEntry).length - 1000)
            = 500 from by simp [hlen]]
    refine ⟨h1, ?_⟩
    rw [h1, List.length_drop, List.length_map, hlen]

/-- Witness for C2: 1500 concrete calls from an empty session. -/
def c2WitnessCalls : List HistCall :=
  (List.range 1500).map (fun i => ⟨"act", [], none, toString i, .okWrite⟩)

/-- A fresh, empty environment over trivial value types. -/
def c2WitnessEnv : Env Unit Unit := ⟨⟨none, none, none, [], [], []⟩, none⟩

/-- Witness for C2 at 1500 concrete calls. -/
theorem c2_history_bound_witness :
    c2WitnessEnv.data.history = ([] : List HistoryEntry) ∧
    c2WitnessCalls.length = 1500 ∧
    (c2WitnessCalls.foldl histStep c2WitnessEnv).data.history
      = (c2WitnessCalls.map mkEntry).drop 500 := by
  refine ⟨rfl, by simp [c2WitnessCalls], ?_⟩
  exact (c2_history_bound.2 Unit Unit c2WitnessEnv c2WitnessCalls rfl
    (by simp [c2WitnessCalls])).1

/-! ## Claim C6: cache put/get contract -/

/-- Claim C6. `get_cached_result` after `cache_result` on the same key
returns the stored value; a repeated `cache_result` on a key overwrites
(upsert); and `get_cached_result` on an absent key returns `None`
(lookups are total functions in the model — they cannot raise). -/
theorem c6_cache_contract :
    (∀ (α β : Type) (env : Env α β) (k : String) (v : α)
        (m : Option (List (String × String))) (now now2 : String) (w w2 : WriteOutcome),
        (SessionManager.get_cached_result
            (SessionManager.cache_result env k v m now w) k now2 w2).1 = some v) ∧
    (∀ (α β : Type) (env : Env α β) (k : String) (v1 v2 : α)
        (m1 m2 : Option (List (String × String))) (n1 n2 : String) (w1 w2 : WriteOutcome),
        dictGet ((SessionManager.cache_result
            (SessionManager.cache_result env k v1 m1 n1 w1) k v2 m2 n2 w2).data.cache) k
          = some ⟨v2, n2, m2⟩) ∧
    (∀ (α β : Type) (env : Env α β) (k : String) (now : String) (w : WriteOutcome),
        dictGet env.data.cache k = none →
        (SessionManager.get_cached_result env k now w).1 = none) := by
  refine ⟨?_, ?_, ?_⟩
  · intro α β env k v m now now2 w w2
    exact SessionManager.get_cached_result_hit _ k now2 w2 ⟨v, now, m⟩
      (by rw [SessionManager.cache_result_data_cache, dictGet_upsert_self])
  · intro α β env k v1 v2 m1 m2 n1 n2 w1 w2
    rw [SessionManager.cache_result_data_cache, dictGet_upsert_self]
  · intro α β env k now w h
    exact SessionManager.get_cached_result_miss env k now w h

/-- A fresh, empty environment over `Nat`-valued cache entries. -/
def c6WitnessEnv : Env Nat Nat := ⟨⟨none, none, none, [], [], []⟩, none⟩

/-- Witness for C6: a lookup on a concrete absent key. -/
theorem c6_cache_contract_witness :
    dictGet c6WitnessEnv.data.cache "absent" = none ∧
    (SessionManager.get_cached_result c6WitnessEnv "absent" "t0" .okWrite).1 = none := by
  exact ⟨rfl, c6_cache_contract.2.2 Nat Nat c6WitnessEnv "absent" "t0" .okWrite rfl⟩

/-! ## Claim C9: persistence failures are swallowed, not propagated -/

/-- Counterexample to C9 as stated: with the underlying write raising
`IOError`, `save_session` returns `False` (line 126) instead of raising;
`cache_result` ignores that flag and completes normally, with the
in-memory cache updated and nothing persisted. -/
def c9Env : Env Nat Nat := ⟨⟨none, none, none, [], [], []⟩, none⟩

/-- Counterexample to C9 as stated: the write fails, yet `save_session`
returns `False` rather than raising, and `cache_result` completes with
the in-memory cache updated and nothing persisted. -/
theorem c9_counterexample :
    (SessionManager.save_session c9Env "t0" .writeFail).2 = false ∧
    (SessionManager.cache_result c9Env "k" 7 none "t0" .writeFail).disk = none ∧
    dictGet ((SessionManager.cache_result c9Env "k" 7 none "t0" .writeFail).data.cache) "k"
      = some ⟨7, "t0", none⟩ := by
  exact ⟨rfl, rfl, rfl⟩

/-- Claim C9, amended. When the underlying write raises, `save_session`
catches the `IOError` and returns `False`; `cache_result`,
`mark_email_processed` and `add_to_history` discard that flag (in the
source they return `None`) and complete normally: the in-memory mutation
is applied, the persisted copy is unchanged, and no exception reaches the
caller (the operations are total functions of the model). -/
theorem c9_save_failure_amended {α β : Type} (env : Env α β) (k : String) (v : α)
    (m : Option (List (String × String))) (eid : String) (b : β)
    (sOf : β → Option String) (a : String) (d : List (String × String))
    (r : Option String) (now : String) :
    (SessionManager.save_session env now .writeFail).2 = false ∧
    ((SessionManager.cache_result env k v m now .writeFail).disk = env.disk ∧
     (SessionManager.cache_result env k v m now .writeFail).data.cache
       = dictUpsert env.data.cache k ⟨v, now, m⟩) ∧
    ((SessionManager.mark_email_processed env eid b sOf now .writeFail).disk = env.disk ∧
     (SessionManager.mark_email_processed env eid b sOf now .writeFail).data.processed_emails
       = dictUpsert env.data.processed_emails eid ⟨b, now⟩) ∧
    ((SessionManager.add_to_history env a d r now .writeFail).disk = env.disk ∧
     (SessionManager.add_to_history env a d r now .writeFail).data.history
       = SessionManager.appendTruncate env.data.history ⟨now, a, d, r⟩) := by
  exact ⟨rfl, ⟨rfl, rfl⟩, ⟨rfl, rfl⟩, ⟨rfl, rfl⟩⟩

/-! ## Claim C4: loading absent/corrupt sessions -/

/-- Counterexample to C4 as stated: (i) a session file whose content is
valid JSON but not an object (e.g. `[1, 2, 3]`) makes `load_session`
raise an uncaught `TypeError` at the
`self.session_data['processed_emails'] = {}` assignment (line 65); (ii)
even for an absent file the synthesized session's history is not empty —
`_create_new_session` records a `session_created` entry (line 98) before
returning. -/
theorem c4_counterexample :
    SessionManager.load_session (α := Unit) (β := Unit) .parsedNonDict none "100" .okWrite
      = .error .typeError ∧
    (∃ env : Env Unit Unit,
      SessionManager.load_session .absent none "100" .okWrite = .ok env ∧
      env.data.history.length = 1 ∧ env.data.history ≠ []) := by
  refine ⟨rfl, SessionManager.create_new_session none "100" .okWrite, rfl, rfl, by decide⟩

/-- Claim C4, amended. When the session file is absent, or unreadable, or
its content fails to JSON-parse, `load_session` never raises: it
synthesizes a fresh session with a newly generated `session_id`, empty
`processed_emails` and `cache`, and a history holding the single
`session_created` entry, persists it immediately, and returns it.
(Content that parses to a non-object JSON value instead raises
`TypeError`, and the fresh history is not empty: see the
counterexample.) -/
theorem c4_load_session_amended {α β : Type} (disk0 : Option (SessionData α β))
    (now : String) (fs : FileState α β) (hfs : fs = .absent ∨ fs = .malformed) :
    ∃ env : Env α β,
      SessionManager.load_session fs disk0 now .okWrite = .ok env ∧
      env.data.session_id = some ("session_" ++ now) ∧
      env.data.processed_emails = [] ∧
      env.data.cache = [] ∧
      env.data.history.map (fun e => e.action) = ["session_created"] ∧
      env.disk = some env.data := by
  rcases hfs with h | h <;> subst h <;>
    exact ⟨SessionManager.create_new_session disk0 now .okWrite,
      rfl, rfl, rfl, rfl, rfl, rfl⟩

/-- Witness for the amended C4 at a concrete absent file. -/
theorem c4_load_session_amended_witness :
    ((FileState.absent : FileState Unit Unit) = .absent ∨
      (FileState.absent : FileState Unit Unit) = .malformed) ∧
    ∃ env : Env Unit Unit,
      SessionManager.load_session .absent none "100" .okWrite = .ok env ∧
      env.data.session_id = some ("session_" ++ "100") ∧
      env.data.processed_emails = [] ∧
      env.data.cache = [] ∧
      env.data.history.map (fun e => e.action) = ["session_created"] ∧
      env.disk = some env.data :=
  ⟨Or.inl rfl, c4_load_session_amended none "100" .absent (Or.inl rfl)⟩

/-! ## Claim C7: the email identity -/

theorem length_flatMap_hexOfByte (l : List Nat) :
    (l.flatMap hexOfByte).length = 2 * l.length := by
  induction l with
  | nil => rfl
  | cons b t ih =>
      simp only [List.flatMap_cons, List.length_append, ih, hexOfByte,
        List.length_cons, List.length_nil]
      omega

theorem md5DigestBytes_length (st : MD5State) : (md5DigestBytes st).length = 16 := by
  simp [md5DigestBytes, bytesOfWord]

theorem md5HexChars_length (msg : List Nat) : (md5HexChars msg).length = 32 := by
  rw [md5HexChars, length_flatMap_hexOfByte, md5DigestBytes_length]

theorem hexDigit_mem (n : Nat) (h : n < 16) : hexDigit n ∈ hexChars := by
  rw [hexChars]
  exact List.mem_map_of_mem hexDigit (List.mem_range.mpr h)

theorem mem_md5HexChars_hex (msg : List Nat) (c : Char) (hc : c ∈ md5HexChars msg) :
    c ∈ hexChars := by
  rw [md5HexChars, List.mem_flatMap] at hc
  obtain ⟨b, hbmem, hb⟩ := hc
  have hb256 : b < 256 := by
    simp only [md5DigestBytes, bytesOfWord, List.mem_append, List.mem_cons,
      List.not_mem_nil, or_false] at hbmem
    rcases hbmem with h|h|h|h|h|h|h|h|h|h|h|h|h|h|h|h <;> omega
  simp only [hexOfByte, List.mem_cons, List.not_mem_nil, or_false] at hb
  rcases hb with hb | hb <;> rw [hb]
  · exact hexDigit_mem _ (by omega)
  · exact hexDigit_mem _ (by omega)

theorem generate_email_id_congr (e1 e2 : Email) (hs : e1.subject = e2.subject)
    (hf : e1.fromAddr = e2.fromAddr) (ht : e1.timestamp = e2.timestamp) :
    SessionManager.generate_email_id e1 = SessionManager.generate_email_id e2 := by
  unfold SessionManager.generate_email_id SessionManager.emailContent
  rw [hs, hf, ht]

/-- Claim C7. `generate_email_id` is a deterministic function of the
`subject`, `from` and `timestamp` fields (hence stable across repeated
calls and process restarts), and its value is the fixed-width 18-character
string `'email_'` followed by the first 12 hexadecimal characters of the
MD5 hexdigest of those fields. -/
theorem c7_generate_email_id (e1 e2 e : Email)
    (hs : e1.subject = e2.subject) (hf : e1.fromAddr = e2.fromAddr)
    (ht : e1.timestamp = e2.timestamp) :
    SessionManager.generate_email_id e1 = SessionManager.generate_email_id e2 ∧
    (SessionManager.generate_email_id e).length = 18 ∧
    SessionManager.generate_email_id e
      = "email_" ++
        String.mk ((md5HexChars (utf8Bytes (SessionManager.emailContent e))).take 12) ∧
    ∀ c ∈ (md5HexChars (utf8Bytes (SessionManager.emailContent e))).take 12,
      c ∈ hexChars := by
  refine ⟨generate_email_id_congr e1 e2 hs hf ht, ?_, rfl, ?_⟩
  · unfold SessionManager.generate_email_id
    rw [String.length_append]
    have h12 : ((md5HexChars (utf8Bytes (SessionManager.emailContent e))).take 12).length
        = 12 := by
      rw [List.length_take, md5HexChars_length]
      omega
    have hmk : (String.mk
        ((md5HexChars (utf8Bytes (SessionManager.emailContent e))).take 12)).length
        = 12 := h12
    rw [hmk]
    rfl
  · intro c hc
    exact mem_md5HexChars_hex _ c (List.take_subset 12 _ hc)

/-- Witness emails for C7: identical stable fields, different bodies. -/
def c7Email1 : Email := ⟨some "Hi", some "a@b", some "body one", some "2024"⟩

/-- Second witness email for C7. -/
def c7Email2 : Email := ⟨some "Hi", some "a@b", some "another body", some "2024"⟩

/-- Witness for C7 at two concrete emails differing only in body. -/
theorem c7_generate_email_id_witness :
    c7Email1.subject = c7Email2.subject ∧
    c7Email1.fromAddr = c7Email2.fromAddr ∧
    c7Email1.timestamp = c7Email2.timestamp ∧
    (SessionManager.generate_email_id c7Email1 = SessionManager.generate_email_id c7Email2 ∧
     (SessionManager.generate_email_id c7Email1).length = 18 ∧
     SessionManager.generate_email_id c7Email1
       = "email_" ++
         String.mk ((md5HexChars (utf8Bytes (SessionManager.emailContent c7Email1))).take 12) ∧
     ∀ c ∈ (md5HexChars (utf8Bytes (SessionManager.emailContent c7Email1))).take 12,
       c ∈ hexChars) :=
  ⟨rfl, rfl, rfl, c7_generate_email_id c7Email1 c7Email2 c7Email1 rfl rfl rfl⟩

/-! ## Claim C3: retry with exponential backoff -/

theorem retryGo_invocations_le {ε α : Type} (op : Nat → Except ε α) (maxR : Nat)
    (base maxd : ℚ) (a fuel : Nat) :
    (retryGo op maxR base maxd a fuel).invocations ≤ fuel := by
  induction fuel generalizing a with
  | zero => simp [retryGo]
  | succ f ih =>
      cases hop : op a with
      | ok v => simp [retryGo, hop]
      | error e =>
          by_cases hm : a = maxR
          · subst hm
            simp [retryGo, hop]
          · have h2 := ih (a + 1)
            simp only [retryGo, hop]
            rw [if_neg hm]
            dsimp only
            omega

theorem retryGo_success {ε α : Type} (op : Nat → Except ε α) (maxR : Nat)
    (base maxd : ℚ) (err : Nat → ε) (j : Nat) (v : α) (hj : j ≤ maxR)
    (hfail : ∀ i, i < j → op i = .error (err i)) (hok : op j = .ok v) :
    ∀ fuel a, a ≤ j → fuel = maxR + 1 - a →
    retryGo op maxR base maxd a fuel
      = ⟨.ok v, j - a + 1, (List.range' a (j - a)).map (backoffDelay base maxd),
         (List.range' a (j - a)).map (fun i => (i + 1, err i))⟩ := by
  intro fuel
  induction fuel with
  | zero => intro a ha hf; omega
  | succ f ih =>
      intro a ha hf
      by_cases haj : a = j
      · subst haj
        simp [retryGo, hok]
      · have halt : a < j := lt_of_le_of_ne ha haj
        have hopa : op a = .error (err a) := hfail a halt
        have hma : a ≠ maxR := by omega
        have hsplit : List.range' a (j - a) = a :: List.range' (a + 1) (j - (a + 1)) := by
          rw [show j - a = (j - (a + 1)) + 1 from by omega]
          rfl
        simp only [retryGo, hopa]
        rw [if_neg hma]
        rw [ih (a + 1) (by omega) (by omega), hsplit]
        simp only [List.map_cons, RetryTrace.mk.injEq, true_and, and_true]
        omega

theorem retryGo_allfail {ε α : Type} (op : Nat → Except ε α) (maxR : Nat)
    (base maxd : ℚ) (err : Nat → ε)
    (hfail : ∀ i, i ≤ maxR → op i = .error (err i)) :
    ∀ fuel a, a ≤ maxR → fuel = maxR + 1 - a →
    retryGo op maxR base maxd a fuel
      = ⟨.error (some (err maxR)), maxR - a + 1,
         (List.range' a (maxR - a)).map (backoffDelay base maxd),
         (List.range' a (maxR - a)).map (fun i => (i + 1, err i))⟩ := by
  intro fuel
  induction fuel with
  | zero => intro a ha hf; omega
  | succ f ih =>
      intro a ha hf
      have hopa : op a = .error (err a) := hfail a ha
      by_cases hm : a = maxR
      · subst hm
        simp [retryGo, hopa]
      · have halt : a < maxR := lt_of_le_of_ne ha hm
        have hsplit : List.range' a (maxR - a)
            = a :: List.range' (a + 1) (maxR - (a + 1)) := by
          rw [show maxR - a = (maxR - (a + 1)) + 1 from by omega]
          rfl
        simp only [retryGo, hopa]
        rw [if_neg hm]
        rw [ih (a + 1) (by omega) (by omega), hsplit]
        simp only [List.map_cons, RetryTrace.mk.injEq, true_and, and_true]
        omega

/-- Claim C3. `retry_with_backoff` invokes the operation at most
`max_retries + 1` times; if the first success is at attempt `j` (all
earlier attempts failing), it returns that result after exactly `j + 1`
invocations, having slept `min(base_delay * 2^a, max_delay)` before the
retry following each failed attempt `a < j` and passed
`(attempt + 1, exception)` to the optional `on_retry` callback exactly
once per retry; if all `max_retries + 1` invocations fail, the last
exception is re-raised.  (With `max_retries = 2`, failing twice then
succeeding gives exactly 3 invocations: see the witness.) -/
theorem c3_retry_with_backoff :
    (∀ (ε α : Type) (maxR : Nat) (base maxd : ℚ) (op : Nat → Except ε α),
        (retry_with_backoff maxR base maxd op).invocations ≤ maxR + 1) ∧
    (∀ (ε α : Type) (maxR : Nat) (base maxd : ℚ) (op : Nat → Except ε α)
        (err : Nat → ε) (j : Nat) (v : α), j ≤ maxR →
        (∀ i, i < j → op i = .error (err i)) → op j = .ok v →
        retry_with_backoff maxR base maxd op
          = ⟨.ok v, j + 1, (List.range j).map (backoffDelay base maxd),
             (List.range j).map (fun i => (i + 1, err i))⟩) ∧
    (∀ (ε α : Type) (maxR : Nat) (base maxd : ℚ) (op : Nat → Except ε α)
        (err : Nat → ε), (∀ i, i ≤ maxR → op i = .error (err i)) →
        retry_with_backoff maxR base maxd op
          = ⟨.error (some (err maxR)), maxR + 1,
             (List.range maxR).map (backoffDelay base maxd),
             (List.range maxR).map (fun i => (i + 1, err i))⟩) := by
  refine ⟨?_, ?_, ?_⟩
  · intro ε α maxR base maxd op
    exact retryGo_invocations_le op maxR base maxd 0 (maxR + 1)
  · intro ε α maxR base maxd op err j v hj hfail hok
    have h := retryGo_success op maxR base maxd err j v hj hfail hok (maxR + 1) 0
      (by omega) (by omega)
    rw [retry_with_backoff, h, List.range_eq_range']
    simp
  · intro ε α maxR base maxd op err hfail
    have h := retryGo_allfail op maxR base maxd err hfail (maxR + 1) 0
      (by omega) (by omega)
    rw [retry_with_backoff, h, List.range_eq_range']
    simp

/-- The witness operation for C3: fails on attempts 0 and 1, succeeds on
attempt 2. -/
def c3Op : Nat → Except String Nat := fun i => if i < 2 then .error "boom" else .ok 42

/-- Witness for C3: `max_retries = 2`, `base_delay = 0.1`, an operation
failing twice then succeeding — exactly 3 invocations and backoff sleeps
of 0.1 and 0.2 seconds. -/
theorem c3_retry_with_backoff_witness :
    (2 ≤ 2) ∧ (∀ i, i < 2 → c3Op i = .error "boom") ∧ c3Op 2 = .ok 42 ∧
    retry_with_backoff 2 (1/10) 60 c3Op
      = ⟨.ok 42, 3, [1/10, 1/5], [(1, "boom"), (2, "boom")]⟩ := by
  refine ⟨by omega, by intro i hi; interval_cases i <;> rfl, rfl, ?_⟩
  have h := c3_retry_with_backoff.2.1 String Nat 2 (1/10) 60 c3Op (fun _ => "boom") 2 42
    (by omega) (by intro i hi; interval_cases i <;> rfl) rfl
  rw [h]
  norm_num [backoffDelay, List.range_succ, min_def]

/-! ## Claim C1: parallel and sequential orchestration agree -/

theorem snd_mem_of_mem_enumFrom {σ : Type} (l : List σ) :
    ∀ (i : Nat) (p : Nat × σ), p ∈ List.enumFrom i l → p.2 ∈ l := by
  induction l with
  | nil => intro i p hp; simp [List.enumFrom] at hp
  | cons x t ih =>
      intro i p hp
      rw [show List.enumFrom i (x :: t) = (i, x) :: List.enumFrom (i + 1) t from rfl,
        List.mem_cons] at hp
      rcases hp with h | h
      · subst h; exact List.mem_cons_self _ _
      · exact List.mem_cons_of_mem _ (ih (i + 1) p h)

theorem except_isOk_exists {ε α : Type} {x : Except ε α} (h : x.isOk = true) :
    ∃ v, x = .ok v := by
  cases x with
  | ok v => exact ⟨v, rfl⟩
  | error e => simp [Except.isOk, Except.toBool] at h

namespace AsyncOrchestrator

theorem analyze_email_async_ok {ε γ δ : Type} (tools : AgentTools ε γ δ MeetingsOut)
    (email : Email) (i : Nat) (hok : toolsOkOn tools email) :
    (analyze_email_async tools email i).isOk = true := by
  obtain ⟨hc, ha, hm⟩ := hok
  obtain ⟨c, hc⟩ := except_isOk_exists hc
  obtain ⟨a, ha⟩ := except_isOk_exists ha
  obtain ⟨m, hm⟩ := except_isOk_exists hm
  simp [analyze_email_async, hc, ha, hm, Except.isOk, Except.toBool]

theorem gatherE_ok_of_all {ε σ : Type} (l : List (Except ε σ))
    (h : ∀ x ∈ l, x.isOk = true) : (gatherE l).isOk = true := by
  induction l with
  | nil => rfl
  | cons x t ih =>
      obtain ⟨v, hv⟩ := except_isOk_exists (h x (List.mem_cons_self x t))
      subst hv
      have ht := ih (fun y hy => h y (List.mem_cons_of_mem _ hy))
      obtain ⟨vs, hvs⟩ := except_isOk_exists ht
      simp [gatherE, hvs, Except.isOk, Except.toBool, Except.map]

theorem sequentialGo_eq_gather {ε γ δ : Type} (tools : AgentTools ε γ δ MeetingsOut)
    (emails : List Email) (hok : ∀ e ∈ emails, toolsOkOn tools e) :
    ∀ (i : Nat) (acc : List (OrchResult γ δ)),
    sequentialGo tools i acc emails
      = (gatherE ((List.enumFrom i emails).map
          (fun p => analyze_email_async tools p.2 p.1))).map (fun l => acc ++ l) := by
  induction emails with
  | nil => intro i acc; simp [sequentialGo, gatherE, Except.map]
  | cons e rest ih =>
      intro i acc
      obtain ⟨hc0, ha0, hm0⟩ := hok e (List.mem_cons_self e rest)
      obtain ⟨c, hc⟩ := except_isOk_exists hc0
      obtain ⟨a, ha⟩ := except_isOk_exists ha0
      obtain ⟨m, hm⟩ := except_isOk_exists hm0
      have hrest : ∀ e ∈ rest, toolsOkOn tools e :=
        fun x hx => hok x (List.mem_cons_of_mem _ hx)
      rw [show List.enumFrom i (e :: rest) = (i, e) :: List.enumFrom (i + 1) rest from rfl]
      rw [List.map_cons]
      have hana : analyze_email_async tools e i
          = .ok { email_index := i
                  subject := e.subject.getD ""
                  fromAddr := e.fromAddr.getD ""
                  classification := c
                  action_items := a.action_items.getD []
                  meeting_requests := m.meetings_detected.getD false } := by
        simp [analyze_email_async, hc, ha, hm]
      rw [hana]
      rw [show sequentialGo tools i acc (e :: rest)
            = sequentialGo tools (i + 1)
                (acc ++
                  [{ email_index := i
                     subject := e.subject.getD ""
                     fromAddr := e.fromAddr.getD ""
                     classification := c
                     action_items := a.action_items.getD []
                     meeting_requests := m.meetings_detected.getD false }]) rest from by
        simp [sequentialGo, hc, ha, hm]]
      rw [ih hrest]
      cases hG : gatherE ((List.enumFrom (i + 1) rest).map
          (fun p => analyze_email_async tools p.2 p.1)) with
      | error err => simp [gatherE, hG, Except.map]
      | ok l => simp [gatherE, hG, Except.map]

end AsyncOrchestrator

/-- Claim C1. When every email's analysis succeeds (the returned result
lists exist), `process_emails_parallel` and `process_emails_sequential`
return the same result list, element for element, in original submission
order (`asyncio.gather` yields results in task-submission order, so the
parallel mode buffers and reorders rather than streaming by completion).
The wall-clock `processing_time` field is real time and outside the
model; all deterministic fields of the per-email dicts are covered. -/
theorem c1_parallel_sequential_agree {ε γ δ : Type}
    (tools : AgentTools ε γ δ MeetingsOut) (emails : List Email)
    (hok : ∀ e ∈ emails, toolsOkOn tools e) :
    AsyncOrchestrator.process_emails_parallel tools emails
      = AsyncOrchestrator.process_emails_sequential tools emails ∧
    (AsyncOrchestrator.process_emails_parallel tools emails).isOk = true := by
  constructor
  · rw [AsyncOrchestrator.process_emails_sequential,
      AsyncOrchestrator.sequentialGo_eq_gather tools emails hok 0 []]
    rw [AsyncOrchestrator.process_emails_parallel]
    rw [show emails.enum = List.enumFrom 0 emails from rfl]
    cases hG : AsyncOrchestrator.gatherE ((List.enumFrom 0 emails).map
        (fun p => AsyncOrchestrator.analyze_email_async tools p.2 p.1)) with
    | error err => simp [Except.map]
    | ok l => simp [Except.map]
  · rw [AsyncOrchestrator.process_emails_parallel]
    apply AsyncOrchestrator.gatherE_ok_of_all
    intro x hx
    rw [List.mem_map] at hx
    obtain ⟨p, hp, hpx⟩ := hx
    exact hpx ▸ AsyncOrchestrator.analyze_email_async_ok tools p.2 p.1
      (hok p.2 (snd_mem_of_mem_enumFrom emails 0 p hp))

/-- Concrete (pure, total) tools for the C1 witness. -/
def c1Tools : AgentTools String String String MeetingsOut :=
  { classify := fun s _ _ => .ok ("p" ++ s)
    extract_action_items := fun s b => .ok ⟨some [s ++ b]⟩
    extract_meeting_requests := fun _ _ => .ok ⟨some false⟩
    priorityOf := fun c => some c }

/-- Concrete batch for the C1 witness. -/
def c1Emails : List Email :=
  [⟨some "A", some "x@y", some "do this", some "t1"⟩,
   ⟨some "B", some "z@w", some "review", some "t2"⟩]

/-- Witness for C1 at a concrete 2-email batch and concrete tools. -/
theorem c1_parallel_sequential_agree_witness :
    (∀ e ∈ c1Emails, toolsOkOn c1Tools e) ∧
    (AsyncOrchestrator.process_emails_parallel c1Tools c1Emails
      = AsyncOrchestrator.process_emails_sequential c1Tools c1Emails ∧
     (AsyncOrchestrator.process_emails_parallel c1Tools c1Emails).isOk = true) :=
  ⟨by intro e he; fin_cases he <;> exact ⟨rfl, rfl, rfl⟩,
   c1_parallel_sequential_agree c1Tools c1Emails
     (by intro e he; fin_cases he <;> exact ⟨rfl, rfl, rfl⟩)⟩

/-! ## Agent step lemmas (shared by C5, C8 and C10) -/

namespace StatefulEmailAgent

theorem process_email_hit {ε γ δ μ : Type} (tools : AgentTools ε γ δ μ)
    (env : AgentEnv γ δ μ) (email : Email) (now : String) (w : WriteOutcome)
    (pe : ProcessedEntry (AnalysisResult γ δ μ))
    (h : dictGet env.data.processed_emails (SessionManager.generate_email_id email)
          = some pe) :
    process_email tools env email now w
      = (SessionManager.add_to_history env "email_cache_hit"
          [("email_id", SessionManager.generate_email_id email),
           ("subject", email.subject.getD "Unknown")] none now w,
         .ok
           { pe.analysis with
             from_cache := true
             email_id := SessionManager.generate_email_id email }) := by
  simp [process_email, h]

theorem process_email_miss {ε γ δ μ : Type} (tools : AgentTools ε γ δ μ)
    (env : AgentEnv γ δ μ) (email : Email) (now : String) (w : WriteOutcome)
    (c : γ) (a : ActionItemsOut δ) (m : μ)
    (h : dictGet env.data.processed_emails (SessionManager.generate_email_id email)
          = none)
    (hc : tools.classify (email.subject.getD "") (email.fromAddr.getD "")
          (email.body.getD "") = .ok c)
    (ha : tools.extract_action_items (email.subject.getD "") (email.body.getD "")
          = .ok a)
    (hm : tools.extract_meeting_requests (email.subject.getD "") (email.body.getD "")
          = .ok m) :
    ∃ (r : AnalysisResult γ δ μ) (env' : AgentEnv γ δ μ),
      process_email tools env email now w = (env', .ok r) ∧
      r.from_cache = false ∧
      r.email_id = SessionManager.generate_email_id email ∧
      env'.data.processed_emails
        = dictUpsert env.data.processed_emails (SessionManager.generate_email_id email)
            ⟨r, now⟩ := by
  unfold process_email
  simp only [h, hc, ha, hm]
  refine ⟨_, _, rfl, rfl, rfl, ?_⟩
  simp

theorem process_email_miss_fail {ε γ δ μ : Type} (tools : AgentTools ε γ δ μ)
    (env : AgentEnv γ δ μ) (email : Email) (now : String) (w : WriteOutcome)
    (err : ε)
    (h : dictGet env.data.processed_emails (SessionManager.generate_email_id email)
          = none)
    (hc : tools.classify (email.subject.getD "") (email.fromAddr.getD "")
          (email.body.getD "") = .error err) :
    (process_email tools env email now w).2 = .error err := by
  unfold process_email
  simp only [h, hc]

end StatefulEmailAgent

/-- Claim C10. `generate_email_id` reads only the `subject`, `from` and
`timestamp` fields: two emails equal on those fields but with different
bodies get the same identity, so once the first is processed,
`process_email` treats the second as already processed and returns the
first email's stored analysis for it (only `from_cache` flipped to
`True`). -/
theorem c10_body_independent {ε γ δ μ : Type} (tools : AgentTools ε γ δ μ)
    (env0 : AgentEnv γ δ μ) (e1 e2 : Email) (n1 n2 : String) (w1 w2 : WriteOutcome)
    (hs : e1.subject = e2.subject) (hf : e1.fromAddr = e2.fromAddr)
    (ht : e1.timestamp = e2.timestamp)
    (hfresh : dictGet env0.data.processed_emails (SessionManager.generate_email_id e1)
        = none)
    (hok : toolsOkOn tools e1) :
    SessionManager.generate_email_id e2 = SessionManager.generate_email_id e1 ∧
    ∃ (r : AnalysisResult γ δ μ) (env1 : AgentEnv γ δ μ),
      StatefulEmailAgent.process_email tools env0 e1 n1 w1 = (env1, .ok r) ∧
      r.from_cache = false ∧
      (StatefulEmailAgent.process_email tools env1 e2 n2 w2).2
        = .ok { r with from_cache := true } := by
  have hid : SessionManager.generate_email_id e2 = SessionManager.generate_email_id e1 :=
    generate_email_id_congr e2 e1 hs.symm hf.symm ht.symm
  refine ⟨hid, ?_⟩
  obtain ⟨hc0, ha0, hm0⟩ := hok
  obtain ⟨c, hc⟩ := except_isOk_exists hc0
  obtain ⟨a, ha⟩ := except_isOk_exists ha0
  obtain ⟨m, hm⟩ := except_isOk_exists hm0
  obtain ⟨r, env1, heq, hfc, hrid, hproc⟩ :=
    StatefulEmailAgent.process_email_miss tools env0 e1 n1 w1 c a m hfresh hc ha hm
  refine ⟨r, env1, heq, hfc, ?_⟩
  have hget : dictGet env1.data.processed_emails (SessionManager.generate_email_id e2)
      = some ⟨r, n1⟩ := by
    rw [hid, hproc, dictGet_upsert_self]
  rw [StatefulEmailAgent.process_email_hit tools env1 e2 n2 w2 ⟨r, n1⟩ hget,
    show SessionManager.generate_email_id e2 = r.email_id from by rw [hid, hrid]]

namespace StatefulEmailAgent

theorem processFirstPass {ε γ δ μ : Type} (tools : AgentTools ε γ δ μ)
    (now : String) (w : WriteOutcome) :
    ∀ (emails : List Email) (env : AgentEnv γ δ μ)
      (acc : List (AnalysisResult γ δ μ)) (cached processed : Nat),
    (emails.map SessionManager.generate_email_id).Nodup →
    (∀ e ∈ emails, dictGet env.data.processed_emails
        (SessionManager.generate_email_id e) = none) →
    (∀ e ∈ emails, toolsOkOn tools e) →
    ∃ (env' : AgentEnv γ δ μ) (rs : List (AnalysisResult γ δ μ)),
      process_emails_go tools now w env acc cached processed emails
        = (env', .ok (acc ++ rs)) ∧
      rs.length = emails.length ∧
      (∀ r ∈ rs, r.from_cache = false) ∧
      List.Forall₂ (fun e r =>
        r.email_id = SessionManager.generate_email_id e ∧
        dictGet env'.data.processed_emails (SessionManager.generate_email_id e)
          = some ⟨r, now⟩) emails rs ∧
      (∀ k, (∀ e ∈ emails, k ≠ SessionManager.generate_email_id e) →
        dictGet env'.data.processed_emails k = dictGet env.data.processed_emails k) := by
  intro emails
  induction emails with
  | nil =>
      intro env acc cached processed hnd hfresh hok
      refine ⟨SessionManager.add_to_history env "batch_processing_complete"
          [("total_emails", toString acc.length), ("cached", toString cached),
           ("processed", toString processed)] none now w, [], ?_, rfl, ?_,
         List.Forall₂.nil, ?_⟩
      · simp [process_emails_go]
      · intro r hr
        exact absurd hr (List.not_mem_nil r)
      · intro k hk
        simp
  | cons e rest ih =>
      intro env acc cached processed hnd hfresh hok
      obtain ⟨hc0, ha0, hm0⟩ := hok e (List.mem_cons_self e rest)
      obtain ⟨c, hc⟩ := except_isOk_exists hc0
      obtain ⟨a, ha⟩ := except_isOk_exists ha0
      obtain ⟨m, hm⟩ := except_isOk_exists hm0
      have hx : dictGet env.data.processed_emails (SessionManager.generate_email_id e)
          = none := hfresh e (List.mem_cons_self e rest)
      obtain ⟨r, env1, heq, hfc, hrid, hproc⟩ :=
        process_email_miss tools env e now w c a m hx hc ha hm
      rw [List.map_cons, List.nodup_cons] at hnd
      obtain ⟨hnotmem, hndrest⟩ := hnd
      have hne : ∀ e' ∈ rest,
          SessionManager.generate_email_id e ≠ SessionManager.generate_email_id e' := by
        intro e' he' hcontr
        exact hnotmem (hcontr ▸ List.mem_map_of_mem SessionManager.generate_email_id he')
      have hfresh1 : ∀ e' ∈ rest,
          dictGet env1.data.processed_emails (SessionManager.generate_email_id e')
            = none := by
        intro e' he'
        rw [hproc, dictGet_upsert_ne _ _ _ _ (hne e' he')]
        exact hfresh e' (List.mem_cons_of_mem e he')
      have hok1 : ∀ e' ∈ rest, toolsOkOn tools e' :=
        fun x hx' => hok x (List.mem_cons_of_mem e hx')
      obtain ⟨env', rs', hgo, hlen, hfcs, hpair, hframe⟩ :=
        ih env1 (acc ++ [r]) cached (processed + 1) hndrest hfresh1 hok1
      refine ⟨env', r :: rs', ?_, ?_, ?_, ?_, ?_⟩
      · rw [show process_emails_go tools now w env acc cached processed (e :: rest)
              = process_emails_go tools now w env1 (acc ++ [r]) cached (processed + 1)
                  rest from by
            simp [process_emails_go, heq, hfc]]
        rw [hgo]
        simp
      · simp [hlen]
      · intro x hx'
        rcases List.mem_cons.mp hx' with h | h
        · rw [h]; exact hfc
        · exact hfcs x h
      · refine List.Forall₂.cons ⟨hrid, ?_⟩ hpair
        rw [hframe (SessionManager.generate_email_id e) hne, hproc, dictGet_upsert_self]
      · intro k hk
        have hkrest : ∀ e' ∈ rest, k ≠ SessionManager.generate_email_id e' :=
          fun e' he' => hk e' (List.mem_cons_of_mem e he')
        rw [hframe k hkrest, hproc,
          dictGet_upsert_ne _ _ _ _ (Ne.symm (hk e (List.mem_cons_self e rest)))]

theorem processSecondPass {ε γ δ μ : Type} (tools : AgentTools ε γ δ μ)
    (now t0 : String) (w : WriteOutcome) :
    ∀ (emails : List Email) (rs : List (AnalysisResult γ δ μ)) (env : AgentEnv γ δ μ)
      (acc : List (AnalysisResult γ δ μ)) (cached processed : Nat),
    List.Forall₂ (fun e r =>
      r.email_id = SessionManager.generate_email_id e ∧
      dictGet env.data.processed_emails (SessionManager.generate_email_id e)
        = some ⟨r, t0⟩) emails rs →
    ∃ env'' : AgentEnv γ δ μ,
      process_emails_go tools now w env acc cached processed emails
        = (env'', .ok (acc ++ rs.map (fun r => { r with from_cache := true }))) := by
  intro emails
  induction emails with
  | nil =>
      intro rs env acc cached processed hf
      cases hf
      refine ⟨SessionManager.add_to_history env "batch_processing_complete"
          [("total_emails", toString acc.length), ("cached", toString cached),
           ("processed", toString processed)] none now w, ?_⟩
      simp [process_emails_go]
  | cons e rest ih =>
      intro rs env acc cached processed hf
      rw [List.forall₂_cons_left_iff] at hf
      obtain ⟨r, rs', ⟨hrid, hget⟩, htl, rfl⟩ := hf
      have hhit := process_email_hit tools env e now w ⟨r, t0⟩ hget
      have heid : SessionManager.generate_email_id e = r.email_id := hrid.symm
      have hstep : process_emails_go tools now w env acc cached processed (e :: rest)
          = process_emails_go tools now w
              (SessionManager.add_to_history env "email_cache_hit"
                [("email_id", SessionManager.generate_email_id e),
                 ("subject", e.subject.getD "Unknown")] none now w)
              (acc ++ [{ r with from_cache := true }]) (cached + 1) processed rest := by
        simp [process_emails_go, hhit, heid]
      rw [hstep]
      have hpe : (SessionManager.add_to_history env "email_cache_hit"
            [("email_id", SessionManager.generate_email_id e),
             ("subject", e.subject.getD "Unknown")] none now w).data.processed_emails
          = env.data.processed_emails := by
        simp
      obtain ⟨env'', hgo⟩ := ih rs'
        (SessionManager.add_to_history env "email_cache_hit"
          [("email_id", SessionManager.generate_email_id e),
           ("subject", e.subject.getD "Unknown")] none now w)
        (acc ++ [{ r with from_cache := true }]) (cached + 1) processed
        (by simp only [hpe]; exact htl)
      refine ⟨env'', ?_⟩
      rw [hgo]
      simp

end StatefulEmailAgent

/-- Concrete (pure, total) tools for the agent-claim witnesses. -/
def agTools : AgentTools String String String String :=
  { classify := fun s _ _ => .ok ("p" ++ s)
    extract_action_items := fun s b => .ok ⟨some [s ++ b]⟩
    extract_meeting_requests := fun s b => .ok (s ++ b)
    priorityOf := fun c => some c }

/-- A fresh agent environment (empty session, nothing persisted). -/
def agEnv0 : AgentEnv String String String := ⟨⟨none, none, none, [], [], []⟩, none⟩

/-- C10 witness email (body "body A"). -/
def c10Email1 : Email := ⟨some "S", some "f@g", some "body A", some "t0"⟩

/-- C10 witness email: same stable fields, different body. -/
def c10Email2 : Email := ⟨some "S", some "f@g", some "a completely different body", some "t0"⟩

/-- Witness for C10 at two concrete emails differing only in body. -/
theorem c10_body_independent_witness :
    c10Email1.subject = c10Email2.subject ∧
    c10Email1.fromAddr = c10Email2.fromAddr ∧
    c10Email1.timestamp = c10Email2.timestamp ∧
    dictGet agEnv0.data.processed_emails (SessionManager.generate_email_id c10Email1)
      = none ∧
    toolsOkOn agTools c10Email1 ∧
    (SessionManager.generate_email_id c10Email2
        = SessionManager.generate_email_id c10Email1 ∧
     ∃ (r : AnalysisResult String String String) (env1 : AgentEnv String String String),
       StatefulEmailAgent.process_email agTools agEnv0 c10Email1 "t1" .okWrite
         = (env1, .ok r) ∧
       r.from_cache = false ∧
       (StatefulEmailAgent.process_email agTools env1 c10Email2 "t2" .okWrite).2
         = .ok { r with from_cache := true }) :=
  ⟨rfl, rfl, rfl, rfl, ⟨rfl, rfl, rfl⟩,
   c10_body_independent agTools agEnv0 c10Email1 c10Email2 "t1" "t2" .okWrite .okWrite
     rfl rfl rfl rfl ⟨rfl, rfl, rfl⟩⟩

/-! ## Claim C5: processing a batch twice -/

/-- Counterexample to C5 as stated ("for every list of emails"): when the
batch contains the same email twice, the second occurrence is a cache hit
already during the *first* call, so the first call does not return
`from_cache: false` for every result. -/
def c5DupEmail : Email := ⟨some "Dup", some "a@b", some "body", some "t9"⟩

/-- The `from_cache` flags of a batch result (`none` when the batch call
raised). -/
def fromCacheView {γ δ μ : Type}
    (p : AgentEnv γ δ μ × Except String (List (AnalysisResult γ δ μ))) :
    Option (List Bool) :=
  match p.2 with
  | .ok rs => some (rs.map (fun r => r.from_cache))
  | .error _ => none

set_option maxRecDepth 20000 in
/-- Counterexample to C5 as stated: the duplicate batch
`[c5DupEmail, c5DupEmail]` processed from a fresh session already yields
`from_cache` flags `[false, true]` on the first call. -/
theorem c5_counterexample :
    fromCacheView (StatefulEmailAgent.process_emails agTools agEnv0
        [c5DupEmail, c5DupEmail] "t0" .okWrite) = some [false, true] := by
  decide

/-- Claim C5, amended. For every batch of emails with pairwise-distinct
identities, none previously processed, and failure-free analysis, the
first `process_emails` call returns every result with
`from_cache: false` (cached count 0), and a second call on the identical
batch returns exactly the stored analyses with `from_cache: true`
(cached count equal to the batch length, 0 newly processed). -/
theorem c5_cache_correct_amended {ε γ δ μ : Type} (tools : AgentTools ε γ δ μ)
    (env0 : AgentEnv γ δ μ) (emails : List Email) (n1 n2 : String)
    (w1 w2 : WriteOutcome)
    (hnodup : (emails.map SessionManager.generate_email_id).Nodup)
    (hfresh : ∀ e ∈ emails, dictGet env0.data.processed_emails
        (SessionManager.generate_email_id e) = none)
    (hok : ∀ e ∈ emails, toolsOkOn tools e) :
    ∃ (env1 : AgentEnv γ δ μ) (rs : List (AnalysisResult γ δ μ)),
      StatefulEmailAgent.process_emails tools env0 emails n1 w1 = (env1, .ok rs) ∧
      rs.length = emails.length ∧
      (∀ r ∈ rs, r.from_cache = false) ∧
      rs.countP (fun r => r.from_cache) = 0 ∧
      (StatefulEmailAgent.process_emails tools env1 emails n2 w2).2
        = .ok (rs.map (fun r => { r with from_cache := true })) ∧
      (rs.map (fun r => { r with from_cache := true })).countP (fun r => r.from_cache)
        = emails.length := by
  obtain ⟨env1, rs, hgo1, hlen, hfc, hpair, hfr⟩ :=
    StatefulEmailAgent.processFirstPass tools n1 w1 emails env0 [] 0 0 hnodup hfresh hok
  refine ⟨env1, rs, ?_, hlen, hfc, ?_, ?_, ?_⟩
  · rw [StatefulEmailAgent.process_emails, hgo1]
    simp
  · rw [List.countP_eq_zero]
    intro r hr
    simp [hfc r hr]
  · obtain ⟨env2, hgo2⟩ :=
      StatefulEmailAgent.processSecondPass tools n2 n1 w2 emails rs env1 [] 0 0 hpair
    rw [StatefulEmailAgent.process_emails, hgo2]
    simp
  · have hml : (rs.map (fun r => { r with from_cache := true })).length
        = emails.length := by simp [hlen]
    rw [← hml, List.countP_eq_length]
    intro r hr
    rw [List.mem_map] at hr
    obtain ⟨r0, _, hr0⟩ := hr
    exact hr0 ▸ rfl

/-- First C5 witness email. -/
def c5EmailA : Email := ⟨some "A1", some "a@b", some "b1", some "t1"⟩

/-- Second C5 witness email (distinct stable fields). -/
def c5EmailB : Email := ⟨some "B2", some "c@d", some "b2", some "t2"⟩

/-- Witness batch for C5: two distinct emails. -/
def c5Batch : List Email := [c5EmailA, c5EmailB]

set_option maxRecDepth 20000 in
/-- Witness for the amended C5 at a concrete 2-email batch. -/
theorem c5_cache_correct_amended_witness :
    (c5Batch.map SessionManager.generate_email_id).Nodup ∧
    (∀ e ∈ c5Batch, dictGet agEnv0.data.processed_emails
        (SessionManager.generate_email_id e) = none) ∧
    (∀ e ∈ c5Batch, toolsOkOn agTools e) ∧
    (∃ (env1 : AgentEnv String String String)
        (rs : List (AnalysisResult String String String)),
      StatefulEmailAgent.process_emails agTools agEnv0 c5Batch "t1" .okWrite
        = (env1, .ok rs) ∧
      rs.length = c5Batch.length ∧
      (∀ r ∈ rs, r.from_cache = false) ∧
      rs.countP (fun r => r.from_cache) = 0 ∧
      (StatefulEmailAgent.process_emails agTools env1 c5Batch "t2" .okWrite).2
        = .ok (rs.map (fun r => { r with from_cache := true })) ∧
      (rs.map (fun r => { r with from_cache := true })).countP (fun r => r.from_cache)
        = c5Batch.length) := by
  have hnd : (c5Batch.map SessionManager.generate_email_id).Nodup := by decide
  have hf : ∀ e ∈ c5Batch, dictGet agEnv0.data.processed_emails
      (SessionManager.generate_email_id e) = none := by
    intro e _
    rfl
  have hok : ∀ e ∈ c5Batch, toolsOkOn agTools e := by
    intro e _
    exact ⟨rfl, rfl, rfl⟩
  exact ⟨hnd, hf, hok,
    c5_cache_correct_amended agTools agEnv0 c5Batch "t1" "t2" .okWrite .okWrite hnd hf hok⟩

/-! ## Claim C8: per-item failures and the batch -/

theorem gatherE_error_at {ε γ δ : Type} (tools : AgentTools ε γ δ MeetingsOut) :
    ∀ (pre : List Email) (i : Nat) (e : Email) (post : List Email) (err : ε),
    (∀ e' ∈ pre, toolsOkOn tools e') →
    tools.classify (e.subject.getD "") (e.fromAddr.getD "") (e.body.getD "")
      = .error err →
    AsyncOrchestrator.gatherE ((List.enumFrom i (pre ++ e :: post)).map
      (fun p => AsyncOrchestrator.analyze_email_async tools p.2 p.1)) = .error err := by
  intro pre
  induction pre with
  | nil =>
      intro i e post err hok hc
      rw [show ([] : List Email) ++ e :: post = e :: post from rfl]
      rw [show List.enumFrom i (e :: post) = (i, e) :: List.enumFrom (i + 1) post from rfl]
      rw [List.map_cons]
      have hana : AsyncOrchestrator.analyze_email_async tools e i = .error err := by
        simp [AsyncOrchestrator.analyze_email_async, hc]
      rw [hana]
      rfl
  | cons p pre' ih =>
      intro i e post err hok hc
      obtain ⟨hc0, ha0, hm0⟩ := hok p (List.mem_cons_self p pre')
      obtain ⟨c, hcp⟩ := except_isOk_exists hc0
      obtain ⟨a, hap⟩ := except_isOk_exists ha0
      obtain ⟨m, hmp⟩ := except_isOk_exists hm0
      rw [show (p :: pre') ++ e :: post = p :: (pre' ++ e :: post) from rfl]
      rw [show List.enumFrom i (p :: (pre' ++ e :: post))
            = (i, p) :: List.enumFrom (i + 1) (pre' ++ e :: post) from rfl]
      rw [List.map_cons]
      have hana : AsyncOrchestrator.analyze_email_async tools p i
          = .ok { email_index := i
                  subject := p.subject.getD ""
                  fromAddr := p.fromAddr.getD ""
                  classification := c
                  action_items := a.action_items.getD []
                  meeting_requests := m.meetings_detected.getD false } := by
        simp [AsyncOrchestrator.analyze_email_async, hcp, hap, hmp]
      rw [hana]
      have hok1 : ∀ e' ∈ pre', toolsOkOn tools e' :=
        fun x hx => hok x (List.mem_cons_of_mem p hx)
      simp [AsyncOrchestrator.gatherE, ih (i + 1) e post err hok1 hc, Except.map]

/-- Counterexample to C8 as stated: a 3-email batch whose middle email's
analysis raises.  `process_emails_parallel` (`asyncio.gather` without
`return_exceptions`) raises instead of returning a per-item-tagged list,
and `StatefulEmailAgent.process_emails` aborts mid-batch and propagates
the exception — no failure count is surfaced and the remaining emails are
not represented in any returned list. -/
def c8Tools : AgentTools String String String MeetingsOut :=
  { classify := fun s _ _ => if s = "boom" then .error "analysis failed" else .ok s
    extract_action_items := fun _ _ => .ok ⟨some []⟩
    extract_meeting_requests := fun _ _ => .ok ⟨some false⟩
    priorityOf := fun c => some c }

/-- Agent-typed variant of the C8 tools. -/
def c8AgTools : AgentTools String String String String :=
  { classify := fun s _ _ => if s = "boom" then .error "analysis failed" else .ok s
    extract_action_items := fun _ _ => .ok ⟨some []⟩
    extract_meeting_requests := fun _ _ => .ok ""
    priorityOf := fun c => some c }

/-- A C8 batch email whose analysis succeeds. -/
def c8Ok1 : Email := ⟨some "fine", some "a@b", some "b", some "t1"⟩

/-- The C8 batch email whose analysis raises. -/
def c8Boom : Email := ⟨some "boom", some "a@b", some "b", some "t2"⟩

/-- Another C8 batch email whose analysis would succeed. -/
def c8Ok2 : Email := ⟨some "also fine", some "a@b", some "b", some "t3"⟩

set_option maxRecDepth 20000 in
/-- Counterexample to C8 as stated: with the middle email's analysis
raising, both batch entry points propagate the exception instead of
returning a tagged per-item result list. -/
theorem c8_counterexample :
    AsyncOrchestrator.process_emails_parallel c8Tools [c8Ok1, c8Boom, c8Ok2]
      = .error "analysis failed" ∧
    (StatefulEmailAgent.process_emails c8AgTools agEnv0 [c8Ok1, c8Boom, c8Ok2]
        "t0" .okWrite).2 = .error "analysis failed" := by
  exact ⟨rfl, rfl⟩

/-- Claim C8, amended. A single item's failing analysis aborts the batch
and the exception propagates to the caller: `process_emails_parallel`
raises whenever some email's analysis raises (all earlier tasks
succeeding), and `StatefulEmailAgent.process_emails` raises when an
unprocessed email's analysis raises, discarding the results accumulated
so far; no per-item error result and no aggregate failure count is
produced. -/
theorem c8_batch_abort_amended :
    (∀ (ε γ δ : Type) (tools : AgentTools ε γ δ MeetingsOut) (pre : List Email)
        (e : Email) (post : List Email) (err : ε),
        (∀ e' ∈ pre, toolsOkOn tools e') →
        tools.classify (e.subject.getD "") (e.fromAddr.getD "") (e.body.getD "")
          = .error err →
        AsyncOrchestrator.process_emails_parallel tools (pre ++ e :: post)
          = .error err) ∧
    (∀ (ε γ δ μ : Type) (tools : AgentTools ε γ δ μ) (env : AgentEnv γ δ μ)
        (e : Email) (rest : List Email) (err : ε) (now : String) (w : WriteOutcome),
        dictGet env.data.processed_emails (SessionManager.generate_email_id e) = none →
        tools.classify (e.subject.getD "") (e.fromAddr.getD "") (e.body.getD "")
          = .error err →
        (StatefulEmailAgent.process_emails tools env (e :: rest) now w).2
          = .error err) := by
  constructor
  · intro ε γ δ tools pre e post err hok hc
    rw [AsyncOrchestrator.process_emails_parallel]
    rw [show (pre ++ e :: post).enum = List.enumFrom 0 (pre ++ e :: post) from rfl]
    exact gatherE_error_at tools pre 0 e post err hok hc
  · intro ε γ δ μ tools env e rest err now w hfresh hc
    rw [StatefulEmailAgent.process_emails]
    rcases hpe : StatefulEmailAgent.process_email tools env e now w with ⟨env1, res⟩
    have h2 : res = .error err := by
      have hh := StatefulEmailAgent.process_email_miss_fail tools env e now w err hfresh hc
      rw [hpe] at hh
      exact hh
    subst h2
    simp [StatefulEmailAgent.process_emails_go, hpe]

/-- Witness for the amended C8 at concrete batches. -/
theorem c8_batch_abort_amended_witness :
    (∀ e' ∈ [c8Ok1], toolsOkOn c8Tools e') ∧
    c8Tools.classify (c8Boom.subject.getD "") (c8Boom.fromAddr.getD "")
      (c8Boom.body.getD "") = .error "analysis failed" ∧
    AsyncOrchestrator.process_emails_parallel c8Tools ([c8Ok1] ++ c8Boom :: [c8Ok2])
      = .error "analysis failed" ∧
    dictGet agEnv0.data.processed_emails (SessionManager.generate_email_id c8Boom)
      = none ∧
    c8AgTools.classify (c8Boom.subject.getD "") (c8Boom.fromAddr.getD "")
      (c8Boom.body.getD "") = .error "analysis failed" ∧
    (StatefulEmailAgent.process_emails c8AgTools agEnv0 (c8Boom :: [c8Ok2])
        "t0" .okWrite).2 = .error "analysis failed" := by
  refine ⟨?_, rfl, ?_, rfl, rfl, ?_⟩
  · intro e he
    fin_cases he
    exact ⟨rfl, rfl, rfl⟩
  · exact c8_batch_abort_amended.1 String String String c8Tools [c8Ok1] c8Boom [c8Ok2]
      "analysis failed" (by intro e he; fin_cases he; exact ⟨rfl, rfl, rfl⟩) rfl
  · exact c8_batch_abort_amended.2 String String String String c8AgTools agEnv0 c8Boom
      [c8Ok2] "analysis failed" "t0" .okWrite rfl rfl
